import Mathlib

/-!
Verification development for the `smoke` property-based testing engine
(crates `smoke` / `smoke-macros`).

The Rust source is shallowly embedded: machine integers (`u8`, `u32`,
`u64`, `usize`, `u128`, `i8`) become `Nat` / `Int` with explicit
`% 2 ^ w` wherever the source relies on wrapping, and every place where
the source can panic (assertion failures, arithmetic overflow in debug
builds together with the matching division-by-zero in release builds,
`panic_any`) is made explicit through `Except` / `Option` results.
-/

namespace Smoke

/-! ## Random source (`src/smoke/src/rand.rs`)

`R` is a pair of 64-bit words.  `Seed` is an opaque 128-bit value; we
represent both by `Nat` values together with explicit reductions
mod `2 ^ 64` / `2 ^ 128`.
-/

/-- State of the pseudo random generator `R(u64, u64)`. -/
structure RState where
  w0 : Nat
  w1 : Nat
deriving Repr, DecidableEq

/-- `const MUL_FACTOR: u64 = 636_4136_2238_4679_3005;` -/
def MUL_FACTOR : Nat := 6364136223846793005

/-- `u32::rotate_right`: rotate the low 32 bits right by `n % 32`. -/
def rotateRight32 (x n : Nat) : Nat :=
  let k := n % 32
  (((x % 2 ^ 32) >>> k) ||| ((x % 2 ^ 32) <<< ((32 - k) % 32))) % 2 ^ 32

/-- `R::next`:
```
let old_state = self.0;
self.0 = old_state.wrapping_mul(MUL_FACTOR).wrapping_add(self.1 | 1);
let xor_shifted = (((old_state >> 18) ^ old_state) >> 27) as u32;
let rot = (old_state >> 59) as u32;
xor_shifted.rotate_right(rot)
```
Returns the drawn `u32` together with the updated state. -/
def rnext (r : RState) : Nat × RState :=
  let old_state := r.w0
  let new0 := (old_state * MUL_FACTOR + (r.w1 ||| 1)) % 2 ^ 64
  let xor_shifted := (((old_state >>> 18) ^^^ old_state) >>> 27) % 2 ^ 32
  let rot := (old_state >>> 59) % 2 ^ 32
  (rotateRight32 xor_shifted rot, ⟨new0, r.w1⟩)

/-- `R::sub`: reads both words, draws one `u32`, and produces the child
`R(r0.wrapping_mul(n as u64), r1.wrapping_add(n as u64))`.
Returns `(child, advanced parent)`. -/
def rsub (r : RState) : RState × RState :=
  let r0 := r.w0
  let r1 := r.w1
  let (n, rr) := rnext r
  (⟨(r0 * n) % 2 ^ 64, (r1 + n) % 2 ^ 64⟩, rr)

/-- `R::from_seed`: `R((seed.0 >> 64) as u64, seed.0 as u64)`. -/
def R.from_seed (seed : Nat) : RState :=
  ⟨(seed >>> 64) % 2 ^ 64, seed % 2 ^ 64⟩

/-! ## Seed formatting and parsing (`src/smoke/src/rand.rs`)

Strings are embedded as `List Char`.
-/

/-- One uppercase hexadecimal digit, as printed by `format!("{:08X}")`. -/
def hexDigitChar (d : Nat) : Char :=
  if d < 10 then Char.ofNat (48 + d) else Char.ofNat (55 + d)

/-- The low `n` hexadecimal digits of `w`, most significant first:
`toHexN 8 w` is the zero-padded 8-digit render of a `u32`,
i.e. one `{:08X}` group of `Display for Seed`. -/
def toHexN : Nat → Nat → List Char
  | 0, _ => []
  | n + 1, w => hexDigitChar (w / 16 ^ n % 16) :: toHexN n w

/-- `Display for Seed`:
`write!(f, "{:08X}-{:08X}-{:08X}-{:08X}", a0, a1, a2, a3)` where
`a0 = (s >> 96) as u32`, ..., `a3 = s as u32`. -/
def Seed.display (s : Nat) : List Char :=
  toHexN 8 ((s >>> 96) % 2 ^ 32) ++
    '-' :: (toHexN 8 ((s >>> 64) % 2 ^ 32) ++
      '-' :: (toHexN 8 ((s >>> 32) % 2 ^ 32) ++
        '-' :: toHexN 8 (s % 2 ^ 32)))

/-- One hexadecimal digit as understood by `u32::from_str_radix(_, 16)`:
`0-9`, `a-f` and `A-F` (case-insensitive). -/
def parseHexDigit (c : Char) : Option Nat :=
  let n := c.toNat
  if 48 ≤ n ∧ n ≤ 57 then some (n - 48)
  else if 97 ≤ n ∧ n ≤ 102 then some (n - 87)
  else if 65 ≤ n ∧ n ≤ 70 then some (n - 55)
  else none

/-- Digit-accumulation loop of `u32::from_str_radix(_, 16)`: checked
multiply-add, failing on any non-digit and on overflow past `u32::MAX`. -/
def parseHexGo : Nat → List Char → Option Nat
  | acc, [] => some acc
  | acc, c :: cs =>
    match parseHexDigit c with
    | none => none
    | some d => if acc * 16 + d < 2 ^ 32 then parseHexGo (acc * 16 + d) cs else none

/-- `u32::from_str_radix(src, 16)`: an optional leading `+` (unsigned
types do not strip `-`), then a non-empty run of hexadecimal digits with
overflow checking. -/
def fromStrRadix16U32 (cs : List Char) : Option Nat :=
  let digits := match cs with
    | c :: rest => if c = '+' then rest else c :: rest
    | [] => []
  match digits with
  | [] => none
  | d :: ds => parseHexGo 0 (d :: ds)

/-- `str::split('-')`: `n` separators yield `n + 1` (possibly empty)
chunks; the empty string yields one empty chunk. -/
def splitDash : List Char → List (List Char)
  | [] => [[]]
  | c :: rest =>
    if c = '-' then [] :: splitDash rest
    else
      match splitDash rest with
      | [] => [[c]]
      | g :: gs => (c :: g) :: gs

/-- `FromStr for Seed`: split on `-`, parse every chunk as hexadecimal
`u32`, require exactly four chunks, and recombine as
`a << 96 | b << 64 | c << 32 | d`; error messages as in the source. -/
def Seed.from_str (cs : List Char) : Except String Nat :=
  let chunk := (splitDash cs).map fromStrRadix16U32
  match chunk with
  | [some a, some b, some c, some d] =>
    Except.ok ((a <<< 96) ||| (b <<< 64) ||| (c <<< 32) ||| d)
  | [none, _, _, _] => Except.error ("cannot parse 1st element as hexadecimal integer")
  | [_, none, _, _] => Except.error ("cannot parse 2nd element as hexadecimal integer")
  | [_, _, none, _] => Except.error ("cannot parse 3rd element as hexadecimal integer")
  | [_, _, _, none] => Except.error ("cannot parse 4th element as hexadecimal integer")
  | _ => Except.error ("expecting 4 hexadecimal values separated by -")

/-- Spec-side definition (for comparison with `Seed.from_str`), following
the wording of the spec: the canonical encoding is "four 8-digit uppercase
hexadecimal groups separated by hyphens".  `canonicalSeedShape` decides
exactly that shape. -/
def isUpperHexDigit (c : Char) : Bool :=
  decide ((48 ≤ c.toNat ∧ c.toNat ≤ 57) ∨ (65 ≤ c.toNat ∧ c.toNat ≤ 70))

/-- Spec-side definition: one canonical group is exactly 8 uppercase
hexadecimal digits. -/
def canonicalGroup (g : List Char) : Bool :=
  g.length == 8 && g.all isUpperHexDigit

/-- Spec-side definition: the canonical seed string shape. -/
def canonicalSeedShape (cs : List Char) : Bool :=
  match splitDash cs with
  | [a, b, c, d] => canonicalGroup a && canonicalGroup b && canonicalGroup c && canonicalGroup d
  | _ => false

/-! ## Outcome tree (`src/smoke/src/ux.rs`, `src/smoke/src/property/api.rs`)

`Elements` is a plain `Vec<Element>` wrapper in the source; we inline it
as `List Element`.
-/

mutual
/-- `pub struct Element(String, Value);` -/
inductive Element where
  | mk (key : String) (val : Value)

/-- `pub enum Value { Str(String), Tree(Elements) }` with `Elements`
inlined as a list. -/
inductive Value where
  | str (s : String)
  | tree (els : List Element)
end

/-- `Value::sub(element) = Value::Tree(Elements(vec![element]))`. -/
def Value.sub (element : Element) : Value :=
  Value.tree [element]

/-- Indentation: `for _ in 0..indent { output.push(' ') }`. -/
def spaces : Nat → String
  | 0 => ""
  | n + 1 => spaces n ++ " "

mutual
/-- `display_element`: key, `": "`, then the value (string leaf followed
by a newline, or a newline followed by the children at `indent + 2`). -/
def Element.displayGo : Nat → Element → String
  | indent, .mk k v => spaces indent ++ k ++ ": " ++ Value.displayGo indent v

def Value.displayGo : Nat → Value → String
  | _, .str s => s ++ "\n"
  | indent, .tree els => "\n" ++ Element.displayList (indent + 2) els

def Element.displayList : Nat → List Element → String
  | _, [] => ""
  | indent, e :: es => Element.displayGo indent e ++ Element.displayList indent es
end

/-- `Element::display(indent)`. -/
def Element.display (indent : Nat) (e : Element) : String :=
  Element.displayGo indent e

/-- `pub enum Outcome { Passed, Failed(Element) }` -/
inductive Outcome where
  | passed
  | failed (t : Element)

/-- `Property for And::result` (`src/smoke/src/property/api.rs`),
as a function of the two sub-outcomes. -/
def And.result (a b : Outcome) : Outcome :=
  let failure_element (left right : Value) : Outcome :=
    Outcome.failed (Element.mk ("and")
      (Value.tree [Element.mk ("left") left, Element.mk ("right") right]))
  match a, b with
  | .passed, .passed => .passed
  | .failed f1, .passed => failure_element (Value.sub f1) (Value.str ("passed"))
  | .passed, .failed f2 => failure_element (Value.str ("passed")) (Value.sub f2)
  | .failed f1, .failed f2 => failure_element (Value.sub f1) (Value.sub f2)

/-- `Property for Or::result` (`src/smoke/src/property/api.rs`). -/
def Or.result (a b : Outcome) : Outcome :=
  match a, b with
  | .passed, _ => .passed
  | .failed _, .passed => .passed
  | .failed f1, .failed f2 =>
    Outcome.failed (Element.mk ("or")
      (Value.tree [Element.mk ("left") (Value.sub f1), Element.mk ("right") (Value.sub f2)]))

/-! ## TestResults (`src/smoke/src/ux.rs`)

`Duration` is wall-clock time; we embed it as a `Nat` (nanoseconds). -/

/-- `pub enum TestRunStatus { Passed, Failed, Skipped }` -/
inductive TestRunStatus where
  | Passed
  | Failed
  | Skipped
deriving Repr, DecidableEq

/-- `pub struct TestResults` -/
structure TestResults where
  nb_tests : Nat
  nb_success : Nat
  nb_failed : Nat
  nb_skipped : Nat
  failures : List String
  duration : Nat
deriving Repr, DecidableEq

/-- `TestResults::to_status`. -/
def TestResults.to_status (tr : TestResults) : TestRunStatus :=
  if tr.nb_tests = 0 then TestRunStatus.Skipped
  else if tr.nb_failed > 0 then TestRunStatus.Failed
  else if tr.nb_skipped = tr.nb_tests then TestRunStatus.Skipped
  else TestRunStatus.Passed

/-- `TestResults::new`. -/
def TestResults.new : TestResults :=
  ⟨0, 0, 0, 0, [], 0⟩

/-- `TestResults::add_success`. -/
def TestResults.add_success (tr : TestResults) : TestResults :=
  { tr with nb_tests := tr.nb_tests + 1, nb_success := tr.nb_success + 1 }

/-- `TestResults::add_failed`. -/
def TestResults.add_failed (tr : TestResults) (reason : String) : TestResults :=
  { tr with
    nb_tests := tr.nb_tests + 1
    nb_failed := tr.nb_failed + 1
    failures := tr.failures ++ [reason] }

/-- `TestResults::set_duration`. -/
def TestResults.set_duration (tr : TestResults) (d : Nat) : TestResults :=
  { tr with duration := d }

/-- `TestResults::add_subtests`. -/
def TestResults.add_subtests (tr sub_tests : TestResults) : TestResults :=
  { nb_tests := tr.nb_tests + sub_tests.nb_tests
    nb_success := tr.nb_success + sub_tests.nb_success
    nb_failed := tr.nb_failed + sub_tests.nb_failed
    nb_skipped := tr.nb_skipped + sub_tests.nb_skipped
    failures := tr.failures ++ sub_tests.failures
    duration := tr.duration + sub_tests.duration }

/-! Accumulation sequences over `TestResults`: the only mutations the
crate performs are `add_success`, `add_failed` and `add_subtests`, the
latter always merging a sub-aggregate that was itself built from
`TestResults::new()` (see `Testable::run`). -/

mutual
/-- One accumulation step on a `TestResults`. -/
inductive ResultsOp where
  | success
  | failed (reason : String)
  | subtests (ops : ResultsOpList)

/-- A sequence of accumulation steps. -/
inductive ResultsOpList where
  | nil
  | cons (o : ResultsOp) (os : ResultsOpList)
end

mutual
/-- Apply one accumulation step; `subtests` merges an aggregate built
from `TestResults.new` by its own step sequence. -/
def applyOp : ResultsOp → TestResults → TestResults
  | .success, tr => tr.add_success
  | .failed reason, tr => tr.add_failed reason
  | .subtests ops, tr => tr.add_subtests (applyOps ops TestResults.new)

/-- Apply a sequence of accumulation steps, left to right. -/
def applyOps : ResultsOpList → TestResults → TestResults
  | .nil, tr => tr
  | .cons o os, tr => applyOps os (applyOp o tr)
end

/-! ## Panic channel and generators
(`src/smoke/src/generator.rs`, `src/smoke/src/run.rs`)

A Rust panic payload (`Box<dyn Any>`) is embedded as a closed sum:
the `SuchThatRetryFailure` marker, a string payload (covering both
`str` and `String` downcasts), or anything else. -/

/-- Panic payload, as discriminated by `run_catch_panic`. -/
inductive PanicPayload where
  | suchThatRetry
  | str (s : String)
  | unknown
deriving Repr, DecidableEq

/-- `pub struct PanicError(String);` -/
structure PanicError where
  msg : String
deriving Repr, DecidableEq

/-- A generator draws from a random stream and either produces a value
with the advanced stream, or panics. -/
def GenM (α : Type) : Type :=
  RState → Except PanicPayload (α × RState)

/-- `Constant::gen`: always return the value, never touching the stream. -/
def constantGen {α : Type} (t : α) : GenM α :=
  fun r => Except.ok (t, r)

/-- The loop body of `SuchThat::gen`: draw from the underlying generator
on the same stream, return the first accepted value; when a draw is
rejected with `retry == 0`, `panic_any(SuchThatRetryFailure)`. -/
def suchThatGo {α : Type} (g : GenM α) (f : α → Bool) (retry : Nat) (r : RState) :
    Except PanicPayload (α × RState) :=
  match g r with
  | .error p => .error p
  | .ok (x, r1) =>
    if f x then .ok (x, r1)
    else
      match retry with
      | 0 => .error PanicPayload.suchThatRetry
      | retry1 + 1 => suchThatGo g f retry1 r1

/-- `Generator::such_that`: builds `SuchThat { retry: 1000, .. }`. -/
def Generator.such_that {α : Type} (g : GenM α) (f : α → Bool) : GenM α :=
  fun r => suchThatGo g f 1000 r

/-- The state reached by drawing `k` values and then drawing once more:
`genIter g k r` is the `(k+1)`-st draw from `g` starting at `r`,
threading the stream from draw to draw. -/
def genIter {α : Type} (g : GenM α) : Nat → RState → Except PanicPayload (α × RState)
  | 0, r => g r
  | n + 1, r =>
    match g r with
    | .error p => .error p
    | .ok (_, r1) => genIter g n r1

/-! ## Numeric range sampling (`src/smoke/src/rand.rs`)

`max_value - min_value + 1` is computed in the fixed-width integer type:
when it overflows, a debug build panics at the addition and a release
build wraps to `0` and then panics at `% 0`; both are embedded as an
error. -/

/-- `NumPrimitive for u8::num_range`. -/
def u8_num_range (min_value max_value : Nat) : GenM Nat :=
  fun r =>
    if min_value ≤ max_value then
      if max_value - min_value + 1 < 2 ^ 8 then
        let diff := max_value - min_value + 1
        let (n, r1) := rnext r
        Except.ok (min_value + n % 2 ^ 8 % diff, r1)
      else Except.error (PanicPayload.str ("attempt to add with overflow"))
    else Except.error (PanicPayload.str ("assertion failed: min_value <= max_value"))

/-- `i8 as u8` (the twos-complement bit pattern). -/
def i8_to_u8 (v : Int) : Nat :=
  (v % 256).toNat

/-- `u8 as i8` (the twos-complement reinterpretation). -/
def u8_to_i8 (n : Nat) : Int :=
  if n < 128 then (n : Int) else (n : Int) - 256

/-- `NumPrimitive for i8::num_range`
(from `define_NumPrimitive_impl_signed!(i8, u8)`): assert the signed
order, then delegate to `u8::num_range` on the unsigned bit patterns and
reinterpret the result. -/
def i8_num_range (min_value max_value : Int) : GenM Int :=
  fun r =>
    if min_value ≤ max_value then
      match u8_num_range (i8_to_u8 min_value) (i8_to_u8 max_value) r with
      | .error p => .error p
      | .ok (v, r1) => .ok (u8_to_i8 v, r1)
    else Except.error (PanicPayload.str ("assertion failed: min_value <= max_value"))

/-- `NumPrimitive for u64::num`: two raw draws, `v1 << 32 | v2`. -/
def u64_num : GenM Nat :=
  fun r =>
    let (v1, r1) := rnext r
    let (v2, r2) := rnext r1
    Except.ok ((v1 <<< 32) ||| v2, r2)

/-- `NumPrimitive for usize::num_range` on a 64-bit host
(`size_of::<usize>() == 8`): wide ranges compose two raw draws,
narrow ones reduce a single draw. -/
def usize_num_range (min_value max_value : Nat) : GenM Nat :=
  fun r =>
    if min_value ≤ max_value then
      if max_value - min_value + 1 < 2 ^ 64 then
        let diff := max_value - min_value + 1
        if diff > 4294967295 then
          match u64_num r with
          | .error p => .error p
          | .ok (v, r1) => Except.ok (min_value + v % diff, r1)
        else
          let (n, r1) := rnext r
          Except.ok (min_value + n % diff, r1)
      else Except.error (PanicPayload.str ("attempt to add with overflow"))
    else Except.error (PanicPayload.str ("assertion failed: min_value <= max_value"))

/-! ## Choice combinators (`src/smoke/src/generator.rs`) -/

/-- `pub struct OneOf<T> { data: Box<[T]> }` -/
structure OneOf (α : Type) where
  data : List α

/-- `pub fn one_of<T: Clone>(slice: &[T]) -> OneOf<T>`: copies the
values into the structure; the source performs no emptiness check here. -/
def one_of {α : Type} (slice : List α) : OneOf α :=
  ⟨slice⟩

/-- `Generator for OneOf::gen`:
`let nb = r.num_range(0, self.data.len() - 1); self.data[nb].clone()`.
On an empty `data`, `len() - 1` underflows: a debug build panics at the
subtraction, a release build wraps to `usize::MAX` and then panics
inside `num_range`; both are embedded as an error. -/
def OneOf.gen {α : Type} (g : OneOf α) : GenM α :=
  fun r =>
    if g.data.length = 0 then Except.error (PanicPayload.str ("attempt to subtract with overflow"))
    else
      match usize_num_range 0 (g.data.length - 1) r with
      | .error p => .error p
      | .ok (nb, r1) =>
        match g.data[nb]? with
        | some x => Except.ok (x, r1)
        | none => Except.error (PanicPayload.str ("index out of bounds"))

/-- `pub fn choose<T>(gens) -> Choose<T>`: `assert!(!gens.is_empty())`
at construction. -/
def choose {α : Type} (gens : List (GenM α)) : Except PanicPayload (List (GenM α)) :=
  if gens.isEmpty then Except.error (PanicPayload.str ("assertion failed: !gens.is_empty()"))
  else Except.ok gens

/-- `pub struct Frequency<T>`: the expanded cumulative index table plus
the weighted generators. -/
structure Frequency (α : Type) where
  frequencies : List Nat
  generators : List (Nat × GenM α)

/-- `Frequency::new`: for each `(i, (nb, _))`, push `i` into the table
`nb` times. -/
def Frequency.new {α : Type} (gens : List (Nat × GenM α)) : Frequency α :=
  { frequencies := (gens.enum.map (fun p => List.replicate p.2.1 p.1)).flatten
    generators := gens }

/-- `pub fn frequency<T>(gens) -> Frequency<T>`:
`assert!(!gens.is_empty())` at construction, then `Frequency::new`. -/
def frequency {α : Type} (gens : List (Nat × GenM α)) : Except PanicPayload (Frequency α) :=
  if gens.isEmpty then Except.error (PanicPayload.str ("assertion failed: !gens.is_empty()"))
  else Except.ok (Frequency.new gens)

/-! ## Execution harness (`src/smoke/src/run.rs`) -/

/-- `run_catch_panic`: with `SMOKE_NO_PANIC_CATCH` set, run the closure
unprotected; otherwise catch the unwind and discriminate the payload
(`SuchThatRetryFailure`, then string payloads, then anything else). -/
def run_catch_panic {α : Type} (no_catch_panic : Bool) (f : Except PanicPayload α) :
    Except PanicPayload (Except PanicError α) :=
  if no_catch_panic then
    match f with
    | .error p => .error p
    | .ok a => .ok (.ok a)
  else
    match f with
    | .ok a => .ok (.ok a)
    | .error PanicPayload.suchThatRetry => .ok (.error (PanicError.mk ("such that retry failure")))
    | .error (PanicPayload.str s) => .ok (.error (PanicError.mk s))
    | .error PanicPayload.unknown => .ok (.error (PanicError.mk ("unknown type of panic error")))

/-- The iteration loop of `Testable for Ensure::test`: per iteration,
derive a sub-stream, generate the input (outside `run_catch_panic`),
then evaluate the property closure inside `run_catch_panic` and record
the classified outcome.  `dbg` stands for the `{:?}` rendering of the
input; `pc` is the property closure followed by `Property::result`. -/
def Ensure.testLoop {α : Type} (g : GenM α) (dbg : α → String)
    (pc : α → Except PanicPayload Outcome) (no_catch : Bool) :
    Nat → RState → TestResults → Except PanicPayload TestResults
  | 0, _, acc => .ok acc
  | n + 1, r, acc =>
    let (test_rng, r1) := rsub r
    match g test_rng with
    | .error p => .error p
    | .ok (input, _) =>
      match run_catch_panic no_catch (pc input) with
      | .error p => .error p
      | .ok (.error pe) =>
        Ensure.testLoop g dbg pc no_catch n r1
          (acc.add_failed ("input: " ++ dbg input ++ "\npanic: \"" ++ pe.msg ++ "\"\n"))
      | .ok (.ok Outcome.passed) =>
        Ensure.testLoop g dbg pc no_catch n r1 acc.add_success
      | .ok (.ok (Outcome.failed t)) =>
        Ensure.testLoop g dbg pc no_catch n r1
          (acc.add_failed ("input = " ++ dbg input ++ "\nproperty failed:\n" ++ Element.display 2 t))

/-- `Testable for Ensure::test`: fresh `TestResults`, `nb_tests`
iterations starting from `R::from_seed(context.seed)`, then
`set_duration` with the measured wall-clock time (passed in as
`elapsed`, since wall-clock time is outside the embedding). -/
def Ensure.test {α : Type} (g : GenM α) (dbg : α → String)
    (pc : α → Except PanicPayload Outcome) (no_catch : Bool)
    (nb_tests : Nat) (seed : Nat) (elapsed : Nat) : Except PanicPayload TestResults :=
  match Ensure.testLoop g dbg pc no_catch nb_tests (R.from_seed seed) TestResults.new with
  | .error p => .error p
  | .ok tr => .ok (tr.set_duration elapsed)

/-! ## Theorems -/

/-- Claim C9, counterexample: the claimed state update
`w0' = w0 * 6364136223846793005 + w1 (mod 2^64)` fails at the state
`(0, 0)`: the code computes `0 * MUL_FACTOR + (0 | 1) = 1`, not `0`. -/
theorem c9_counterexample :
    ¬ (rnext ⟨0, 0⟩).2.w0 = (0 * MUL_FACTOR + 0) % 2 ^ 64 := by
  decide

/-- Claim C9 (amended): one call to `R::next` on state `(w0, w1)` with
`w0 < 2^64` updates the first word to
`w0 * 6364136223846793005 + (w1 | 1) (mod 2^64)` — the second word is
bitwise OR-ed with 1 before the add — leaves the second word unchanged,
and returns `rotate_right(((w0 >> 18) xor w0) >> 27 truncated to 32
bits, by w0 >> 59)`. -/
theorem c9_next_state_and_output (w0 w1 : Nat) (h0 : w0 < 2 ^ 64) :
    rnext ⟨w0, w1⟩ =
      (rotateRight32 ((((w0 / 2 ^ 18) ^^^ w0) / 2 ^ 27) % 2 ^ 32) (w0 / 2 ^ 59),
        ⟨(w0 * 6364136223846793005 + (w1 ||| 1)) % 2 ^ 64, w1⟩) := by
  have h59 : w0 / 2 ^ 59 < 2 ^ 32 := by
    have h5 : w0 / 2 ^ 59 < 2 ^ 5 := by
      apply Nat.div_lt_of_lt_mul
      calc w0 < 2 ^ 64 := h0
        _ = 2 ^ 59 * 2 ^ 5 := by norm_num
    exact lt_trans h5 (by norm_num)
  unfold rnext MUL_FACTOR
  simp only [Nat.shiftRight_eq_div_pow]
  rw [Nat.mod_eq_of_lt h59]

/-- Witness for C9 (amended) at the concrete state `(3, 4)`. -/
theorem c9_next_state_and_output_witness :
    rnext ⟨3, 4⟩ =
      (rotateRight32 ((((3 / 2 ^ 18) ^^^ 3) / 2 ^ 27) % 2 ^ 32) (3 / 2 ^ 59),
        ⟨(3 * 6364136223846793005 + (4 ||| 1)) % 2 ^ 64, 4⟩) :=
  c9_next_state_and_output 3 4 (by norm_num)

/-- Claim C10: `to_status` returns `Skipped` when `nb_tests` is zero and
also when all tests were skipped; `Failed` takes precedence (over the
all-skipped check) whenever `nb_failed > 0`; `Passed` exactly when
`nb_tests > 0`, `nb_failed == 0` and not all tests were skipped. -/
theorem c10_to_status : ∀ tr : TestResults,
    (tr.nb_tests = 0 → tr.to_status = TestRunStatus.Skipped) ∧
    (tr.nb_tests ≠ 0 → 0 < tr.nb_failed → tr.to_status = TestRunStatus.Failed) ∧
    (tr.nb_tests ≠ 0 → tr.nb_failed = 0 → tr.nb_skipped = tr.nb_tests →
      tr.to_status = TestRunStatus.Skipped) ∧
    (tr.to_status = TestRunStatus.Passed ↔
      0 < tr.nb_tests ∧ tr.nb_failed = 0 ∧ tr.nb_skipped ≠ tr.nb_tests) := by
  intro tr
  unfold TestResults.to_status
  refine ⟨?_, ?_, ?_, ?_⟩ <;> split_ifs <;> simp_all <;> omega

/-- Witness for C10 at the empty `TestResults`. -/
theorem c10_to_status_witness :
    TestResults.to_status ⟨0, 0, 0, 0, [], 0⟩ = TestRunStatus.Skipped :=
  (c10_to_status ⟨0, 0, 0, 0, [], 0⟩).1 rfl

/-- Claim C6: `and` is `Passed` iff both branches pass, `or` is `Passed`
iff either branch passes, and every non-pass combination produces the
exact `Failed` element named `"and"` / `"or"` nesting both branches,
with a passed branch rendered as the literal `"passed"` leaf. -/
theorem c6_and_or_result : ∀ (a b : Outcome) (e1 e2 : Element),
    (And.result a b = Outcome.passed ↔ a = Outcome.passed ∧ b = Outcome.passed) ∧
    (Or.result a b = Outcome.passed ↔ a = Outcome.passed ∨ b = Outcome.passed) ∧
    (And.result (Outcome.failed e1) Outcome.passed =
      Outcome.failed (Element.mk ("and") (Value.tree
        [Element.mk ("left") (Value.sub e1), Element.mk ("right") (Value.str ("passed"))]))) ∧
    (And.result Outcome.passed (Outcome.failed e2) =
      Outcome.failed (Element.mk ("and") (Value.tree
        [Element.mk ("left") (Value.str ("passed")), Element.mk ("right") (Value.sub e2)]))) ∧
    (And.result (Outcome.failed e1) (Outcome.failed e2) =
      Outcome.failed (Element.mk ("and") (Value.tree
        [Element.mk ("left") (Value.sub e1), Element.mk ("right") (Value.sub e2)]))) ∧
    (Or.result (Outcome.failed e1) (Outcome.failed e2) =
      Outcome.failed (Element.mk ("or") (Value.tree
        [Element.mk ("left") (Value.sub e1), Element.mk ("right") (Value.sub e2)]))) := by
  intro a b e1 e2
  refine ⟨?_, ?_, rfl, rfl, rfl, rfl⟩ <;>
    cases a <;> cases b <;> simp [And.result, Or.result]

/-- Claim C2: `num_range` panics on inputs that its own documentation allows.
At `u8::num_range(0, 255)` (the full domain, with `min <= max`) the
width `max - min + 1` overflows `u8`; at `i8::num_range(-1, 1)` (a
sign-spanning range with `min <= max`) the delegated unsigned call sees
`255 <= 1` and its assertion fails.  In both cases the call aborts for
every random state instead of returning a value in `[min, max]`. -/
theorem c2_num_range_panics : ∀ r : RState,
    u8_num_range 0 255 r = Except.error (PanicPayload.str ("attempt to add with overflow")) ∧
    i8_num_range (-1) 1 r =
      Except.error (PanicPayload.str ("assertion failed: min_value <= max_value")) := by
  intro r
  constructor
  · simp [u8_num_range]
  · have h : i8_to_u8 (-1) = 255 := by decide
    simp [i8_num_range, u8_num_range, h, i8_to_u8]

/-- Claim C7, counterexample: `one_of` on the empty value set does not
fail at construction — it returns a generator — and the failure of
that generator only surfaces at generation time (the `len() - 1` underflow
inside `OneOf::gen`). -/
theorem c7_counterexample :
    one_of ([] : List Nat) = OneOf.mk [] ∧
    OneOf.gen (one_of ([] : List Nat)) ⟨0, 0⟩ =
      Except.error (PanicPayload.str ("attempt to subtract with overflow")) :=
  ⟨rfl, rfl⟩

/-- Claim C7 (amended): `choose` and `frequency` fail fast at
construction time on an empty list; `one_of` performs no
construction-time check, and the generator it returns for an empty
value set fails at every generation attempt instead. -/
theorem c7_empty_choice : ∀ r : RState,
    choose ([] : List (GenM Nat)) =
      Except.error (PanicPayload.str ("assertion failed: !gens.is_empty()")) ∧
    frequency ([] : List (Nat × GenM Nat)) =
      Except.error (PanicPayload.str ("assertion failed: !gens.is_empty()")) ∧
    OneOf.gen (one_of ([] : List Nat)) r =
      Except.error (PanicPayload.str ("attempt to subtract with overflow")) :=
  fun _ => ⟨rfl, rfl, rfl⟩

/-- The counter/failure-list invariant of `TestResults`. -/
def resultsInvariant (tr : TestResults) : Prop :=
  tr.nb_tests = tr.nb_success + tr.nb_failed + tr.nb_skipped ∧
    tr.failures.length = tr.nb_failed

/-- Pointwise order on the counters (and the failure-list length). -/
def countersLE (a b : TestResults) : Prop :=
  a.nb_tests ≤ b.nb_tests ∧ a.nb_success ≤ b.nb_success ∧ a.nb_failed ≤ b.nb_failed ∧
    a.nb_skipped ≤ b.nb_skipped ∧ a.failures.length ≤ b.failures.length

theorem countersLE_refl (a : TestResults) : countersLE a a :=
  ⟨le_refl _, le_refl _, le_refl _, le_refl _, le_refl _⟩

theorem countersLE_trans {a b c : TestResults} (h1 : countersLE a b) (h2 : countersLE b c) :
    countersLE a c := by
  obtain ⟨x1, x2, x3, x4, x5⟩ := h1
  obtain ⟨y1, y2, y3, y4, y5⟩ := h2
  exact ⟨le_trans x1 y1, le_trans x2 y2, le_trans x3 y3, le_trans x4 y4, le_trans x5 y5⟩

mutual
theorem applyOp_invariant (o : ResultsOp) (tr : TestResults) (h : resultsInvariant tr) :
    resultsInvariant (applyOp o tr) := by
  match o with
  | .success =>
    obtain ⟨h1, h2⟩ := h
    constructor
    · simp only [applyOp, TestResults.add_success]
      omega
    · simp only [applyOp, TestResults.add_success]
      omega
  | .failed reason =>
    obtain ⟨h1, h2⟩ := h
    constructor
    · simp only [applyOp, TestResults.add_failed]
      omega
    · simp only [applyOp, TestResults.add_failed, List.length_append, List.length_cons,
        List.length_nil]
      omega
  | .subtests ops =>
    obtain ⟨h1, h2⟩ := h
    obtain ⟨s1, s2⟩ := applyOps_invariant ops TestResults.new ⟨rfl, rfl⟩
    constructor
    · simp only [applyOp, TestResults.add_subtests]
      omega
    · simp only [applyOp, TestResults.add_subtests, List.length_append]
      omega

theorem applyOps_invariant (ops : ResultsOpList) (tr : TestResults) (h : resultsInvariant tr) :
    resultsInvariant (applyOps ops tr) := by
  match ops with
  | .nil => exact h
  | .cons o os => exact applyOps_invariant os (applyOp o tr) (applyOp_invariant o tr h)
end

theorem applyOp_mono (o : ResultsOp) (tr : TestResults) : countersLE tr (applyOp o tr) := by
  cases o <;>
    refine ⟨?_, ?_, ?_, ?_, ?_⟩ <;>
      simp [applyOp, TestResults.add_success, TestResults.add_failed, TestResults.add_subtests]

theorem applyOps_mono (ops : ResultsOpList) (tr : TestResults) :
    countersLE tr (applyOps ops tr) := by
  match ops with
  | .nil => exact countersLE_refl tr
  | .cons o os =>
    exact countersLE_trans (applyOp_mono o tr) (applyOps_mono os (applyOp o tr))

/-- Claim C8: after any sequence of `add_success`, `add_failed` and
`add_subtests` steps starting from `TestResults::new()`, the aggregate
satisfies `nb_tests = nb_success + nb_failed + nb_skipped`, its failure
list has exactly `nb_failed` entries (each `add_failed` appends exactly
one record), and along any such sequence no counter ever decreases. -/
theorem c8_accumulation : ∀ ops : ResultsOpList,
    ((applyOps ops TestResults.new).nb_tests =
      (applyOps ops TestResults.new).nb_success + (applyOps ops TestResults.new).nb_failed +
        (applyOps ops TestResults.new).nb_skipped) ∧
    ((applyOps ops TestResults.new).failures.length = (applyOps ops TestResults.new).nb_failed) ∧
    (∀ tr : TestResults, countersLE tr (applyOps ops tr)) := by
  intro ops
  obtain ⟨h1, h2⟩ := applyOps_invariant ops TestResults.new ⟨rfl, rfl⟩
  exact ⟨h1, h2, fun tr => applyOps_mono ops tr⟩

/-! ### Rejection-sampling helpers -/

theorem genIter_zero {α : Type} (g : GenM α) (r : RState) : genIter g 0 r = g r := rfl

theorem genIter_succ_of_ok {α : Type} (g : GenM α) (n : Nat) (r r1 : RState) (y : α)
    (hg : g r = Except.ok (y, r1)) : genIter g (n + 1) r = genIter g n r1 := by
  simp only [genIter]
  rw [hg]

theorem suchThatGo_ok_sat {α : Type} (g : GenM α) (f : α → Bool) :
    ∀ (n : Nat) (r : RState) (x : α) (r1 : RState),
      suchThatGo g f n r = Except.ok (x, r1) → f x = true := by
  intro n
  induction n with
  | zero =>
    intro r x r1 h
    unfold suchThatGo at h
    cases hg : g r with
    | error p => rw [hg] at h; exact Except.noConfusion h
    | ok v =>
      obtain ⟨y, r2⟩ := v
      rw [hg] at h
      by_cases hf : f y = true
      · simp only [hf, if_true] at h
        obtain ⟨rfl, rfl⟩ : y = x ∧ r2 = r1 := by
          have := Except.ok.inj h
          exact ⟨congrArg Prod.fst this, congrArg Prod.snd this⟩
        exact hf
      · simp only [hf] at h
        simp at h
  | succ n ih =>
    intro r x r1 h
    unfold suchThatGo at h
    cases hg : g r with
    | error p => rw [hg] at h; exact Except.noConfusion h
    | ok v =>
      obtain ⟨y, r2⟩ := v
      rw [hg] at h
      by_cases hf : f y = true
      · simp only [hf, if_true] at h
        obtain ⟨rfl, rfl⟩ : y = x ∧ r2 = r1 := by
          have := Except.ok.inj h
          exact ⟨congrArg Prod.fst this, congrArg Prod.snd this⟩
        exact hf
      · simp only [hf] at h
        simp at h
        exact ih r2 x r1 h

theorem suchThatGo_first_accept {α : Type} (g : GenM α) (f : α → Bool) :
    ∀ (k n : Nat) (r : RState) (x : α) (r1 : RState), k ≤ n →
      genIter g k r = Except.ok (x, r1) → f x = true →
      (∀ j y ry, j < k → genIter g j r = Except.ok (y, ry) → f y = false) →
      suchThatGo g f n r = Except.ok (x, r1) := by
  intro k
  induction k with
  | zero =>
    intro n r x r1 _ hit hfx _
    have hg : g r = Except.ok (x, r1) := hit
    unfold suchThatGo
    rw [hg]
    simp [hfx]
  | succ k ih =>
    intro n r x r1 hkn hit hfx hrej
    cases hg : g r with
    | error p =>
      exfalso
      unfold genIter at hit
      rw [hg] at hit
      exact Except.noConfusion hit
    | ok v =>
      obtain ⟨y, r2⟩ := v
      have hy : f y = false := hrej 0 y r2 (Nat.succ_pos k) hg
      obtain ⟨n1, rfl⟩ : ∃ n1, n = n1 + 1 := ⟨n - 1, by omega⟩
      unfold suchThatGo
      rw [hg]
      simp only [hy, Bool.false_eq_true, if_false]
      apply ih n1 r2 x r1 (by omega)
      · rw [← genIter_succ_of_ok g k r r2 y hg]
        exact hit
      · exact hfx
      · intro j y2 ry hj hgj
        refine hrej (j + 1) y2 ry (by omega) ?_
        rw [genIter_succ_of_ok g j r r2 y hg]
        exact hgj

theorem suchThatGo_exhaust {α : Type} (g : GenM α) (f : α → Bool)
    (hg : ∀ s, ∃ y s1, g s = Except.ok (y, s1)) :
    ∀ (n : Nat) (r : RState),
      (∀ j y ry, j ≤ n → genIter g j r = Except.ok (y, ry) → f y = false) →
      suchThatGo g f n r = Except.error PanicPayload.suchThatRetry := by
  intro n
  induction n with
  | zero =>
    intro r hrej
    obtain ⟨y, s1, hgr⟩ := hg r
    have hy : f y = false := hrej 0 y s1 (le_refl 0) hgr
    unfold suchThatGo
    rw [hgr]
    simp [hy]
  | succ n ih =>
    intro r hrej
    obtain ⟨y, s1, hgr⟩ := hg r
    have hy : f y = false := hrej 0 y s1 (Nat.zero_le _) hgr
    unfold suchThatGo
    rw [hgr]
    simp only [hy, Bool.false_eq_true, if_false]
    apply ih s1
    intro j y2 ry hj hgj
    refine hrej (j + 1) y2 ry (by omega) ?_
    rw [genIter_succ_of_ok g j r s1 y hgr]
    exact hgj

/-- Claim C4: `such_that(f)` (with its construction-time retry budget of
1000) draws repeatedly from the underlying generator on the same stream
— the `(j+1)`-st attempt resumes exactly at the state the `j`-th attempt
returned, which is what `genIter` computes — and returns the first value
accepted by `f`, so every returned value satisfies `f`; if all
`1000 + 1` draws are rejected, generation fails with the distinguished
rejection-sampling-exhaustion panic payload instead of returning a
value, which `run_catch_panic` converts to the failed sampling attempt
`"such that retry failure"`, distinct from a property failure (a
property failure surfaces as `.ok` of a `Failed` outcome). -/
theorem c4_such_that : ∀ (α : Type) (g : GenM α) (f : α → Bool),
    (∀ (r : RState) (x : α) (r1 : RState),
      Generator.such_that g f r = Except.ok (x, r1) → f x = true) ∧
    (∀ (r : RState) (k : Nat) (x : α) (r1 : RState), k ≤ 1000 →
      genIter g k r = Except.ok (x, r1) → f x = true →
      (∀ j y ry, j < k → genIter g j r = Except.ok (y, ry) → f y = false) →
      Generator.such_that g f r = Except.ok (x, r1)) ∧
    (∀ r : RState, (∀ s, ∃ y s1, g s = Except.ok (y, s1)) →
      (∀ j y ry, j ≤ 1000 → genIter g j r = Except.ok (y, ry) → f y = false) →
      Generator.such_that g f r = Except.error PanicPayload.suchThatRetry) ∧
    (run_catch_panic false (Except.error PanicPayload.suchThatRetry : Except PanicPayload Outcome)
      = Except.ok (Except.error (PanicError.mk ("such that retry failure")))) := by
  intro α g f
  refine ⟨?_, ?_, ?_, rfl⟩
  · intro r x r1 h
    exact suchThatGo_ok_sat g f 1000 r x r1 h
  · intro r k x r1 hk hit hfx hrej
    exact suchThatGo_first_accept g f k 1000 r x r1 hk hit hfx hrej
  · intro r hg hrej
    exact suchThatGo_exhaust g f hg 1000 r hrej

/-- Witness for C4: on the constant generator of `5` with the predicate
"equals 5", the first draw is accepted and returned unchanged. -/
theorem c4_such_that_witness :
    Generator.such_that (constantGen (5 : Nat)) (fun x => x == 5) ⟨0, 0⟩ =
      Except.ok (5, ⟨0, 0⟩) :=
  (c4_such_that Nat (constantGen 5) (fun x => x == 5)).2.1 ⟨0, 0⟩ 0 5 ⟨0, 0⟩
    (by omega) rfl (by decide)
    (fun j y ry hj _ => absurd hj (Nat.not_lt_zero j))

/-- Claim C1: with failure isolation enabled (`SMOKE_NO_PANIC_CATCH`
unset), a failure raised during input generation is NOT caught by the
harness: in `Ensure::test` the call `generator.gen(&mut test_rng)` sits
outside `run_catch_panic` (which guards only the property closure), so
the rejection-sampling-exhaustion panic aborts the whole loop.  Here a
2-iteration run over `constant(0).such_that(|_| false)` with an
always-passing property propagates the exhaustion panic out of the
entire `Ensure::test` instead of recording failed iterations and
continuing: the `SuchThatRetryFailure` branch of `run_catch_panic` is
unreachable from this loop. -/
theorem c1_generation_panic_aborts :
    Ensure.test (Generator.such_that (constantGen (0 : Nat)) (fun _ => false))
      (fun _ => ("0")) (fun _ => Except.ok Outcome.passed) false 2 0 0 =
      Except.error PanicPayload.suchThatRetry := by
  have hall : suchThatGo (constantGen (0 : Nat)) (fun _ => false) 1000 ⟨0, 0⟩ =
      Except.error PanicPayload.suchThatRetry :=
    suchThatGo_exhaust (constantGen (0 : Nat)) (fun _ => false)
      (fun s => ⟨0, s, rfl⟩) 1000 ⟨0, 0⟩ (fun _ _ _ _ _ => rfl)
  have hseed : R.from_seed 0 = ⟨0, 0⟩ := by decide
  have hsub : rsub ⟨0, 0⟩ = (⟨0, 0⟩, ⟨1, 0⟩) := by decide
  simp only [Ensure.test, Ensure.testLoop, hseed, hsub, Generator.such_that, hall]

/-! ### Seed string helpers -/

theorem parseHexDigit_lt (c : Char) (d : Nat) (h : parseHexDigit c = some d) : d < 16 := by
  simp only [parseHexDigit] at h
  split_ifs at h <;> simp_all <;> omega

theorem parseHexDigit_hexDigitChar : ∀ d : Nat, d < 16 → parseHexDigit (hexDigitChar d) = some d := by
  decide

theorem hexDigitChar_ne_dash : ∀ d : Nat, d < 16 → hexDigitChar d ≠ '-' := by
  decide

theorem hexDigitChar_ne_plus : ∀ d : Nat, d < 16 → hexDigitChar d ≠ '+' := by
  decide

theorem toHexN_mem : ∀ (n w : Nat) (c : Char), c ∈ toHexN n w → ∃ d, d < 16 ∧ c = hexDigitChar d := by
  intro n
  induction n with
  | zero => intro w c h; simp [toHexN] at h
  | succ n ih =>
    intro w c h
    simp only [toHexN] at h
    rcases List.mem_cons.mp h with h1 | h2
    · exact ⟨w / 16 ^ n % 16, Nat.mod_lt _ (by norm_num), h1⟩
    · exact ih w c h2

theorem toHexN_no_dash (n w : Nat) : '-' ∉ toHexN n w := by
  intro hm
  obtain ⟨d, hd, he⟩ := toHexN_mem n w '-' hm
  exact hexDigitChar_ne_dash d hd he.symm

theorem splitDash_no_dash : ∀ xs : List Char, '-' ∉ xs → splitDash xs = [xs] := by
  intro xs
  induction xs with
  | nil => intro _; rfl
  | cons c rest ih =>
    intro h
    have hc : ¬ c = '-' := fun e => h (by rw [e]; exact List.mem_cons_self _ _)
    have hrest : '-' ∉ rest := fun hm => h (List.mem_cons_of_mem c hm)
    unfold splitDash
    rw [if_neg hc, ih hrest]

theorem splitDash_append : ∀ (xs ys : List Char), '-' ∉ xs →
    splitDash (xs ++ '-' :: ys) = xs :: splitDash ys := by
  intro xs
  induction xs with
  | nil =>
    intro ys _
    simp [splitDash]
  | cons c rest ih =>
    intro ys h
    have hc : ¬ c = '-' := fun e => h (by rw [e]; exact List.mem_cons_self _ _)
    have hrest : '-' ∉ rest := fun hm => h (List.mem_cons_of_mem c hm)
    simp only [List.cons_append, splitDash, hc, List.append_eq]
    rw [ih ys hrest]
    simp

theorem parseHexGo_toHexN : ∀ (n acc w : Nat), acc * 16 ^ n + w % 16 ^ n < 2 ^ 32 →
    parseHexGo acc (toHexN n w) = some (acc * 16 ^ n + w % 16 ^ n) := by
  intro n
  induction n with
  | zero =>
    intro acc w _
    simp [toHexN, parseHexGo, Nat.mod_one]
  | succ n ih =>
    intro acc w hb
    have hdlt : w / 16 ^ n % 16 < 16 := Nat.mod_lt _ (by norm_num)
    have hM : w % 16 ^ (n + 1) = w / 16 ^ n % 16 * 16 ^ n + w % 16 ^ n := by
      rw [pow_succ, Nat.mod_mul]
      ring
    have hkey : (acc * 16 + w / 16 ^ n % 16) * 16 ^ n + w % 16 ^ n =
        acc * 16 ^ (n + 1) + w % 16 ^ (n + 1) := by
      rw [hM, pow_succ]
      ring
    have hcheck : acc * 16 + w / 16 ^ n % 16 < 2 ^ 32 := by
      have hp : 0 < 16 ^ n := Nat.pos_pow_of_pos n (by norm_num)
      have h1 : acc * 16 + w / 16 ^ n % 16 ≤ (acc * 16 + w / 16 ^ n % 16) * 16 ^ n :=
        Nat.le_mul_of_pos_right _ hp
      omega
    simp only [toHexN, parseHexGo, parseHexDigit_hexDigitChar (w / 16 ^ n % 16) hdlt]
    rw [if_pos hcheck,
      ih (acc * 16 + w / 16 ^ n % 16) w (by rw [hkey]; exact hb),
      hkey]

theorem fromStrRadix_cons (c : Char) (cs : List Char) (h : ¬ c = '+') :
    fromStrRadix16U32 (c :: cs) = parseHexGo 0 (c :: cs) := by
  show (match (if c = '+' then cs else c :: cs) with
    | [] => none
    | d :: ds => parseHexGo 0 (d :: ds)) = parseHexGo 0 (c :: cs)
  rw [if_neg h]

theorem fromStrRadix_toHexN (w : Nat) (hw : w < 2 ^ 32) :
    fromStrRadix16U32 (toHexN 8 w) = some w := by
  have hdl : w / 16 ^ 7 % 16 < 16 := Nat.mod_lt _ (by norm_num)
  have hcons : toHexN 8 w = hexDigitChar (w / 16 ^ 7 % 16) :: toHexN 7 w := rfl
  rw [hcons, fromStrRadix_cons _ _ (hexDigitChar_ne_plus _ hdl), ← hcons]
  have hmod : w % 16 ^ 8 = w := by
    apply Nat.mod_eq_of_lt
    have e : (16 : Nat) ^ 8 = 2 ^ 32 := by norm_num
    rw [e]
    exact hw
  have h := parseHexGo_toHexN 8 0 w (by rw [hmod]; simpa using hw)
  rw [hmod] at h
  simpa using h

theorem seed_recompose (a b c d : Nat) (hb : b < 2 ^ 32) (hc : c < 2 ^ 32) (hd : d < 2 ^ 32) :
    (a <<< 96) ||| (b <<< 64) ||| (c <<< 32) ||| d =
      a * 2 ^ 96 + b * 2 ^ 64 + c * 2 ^ 32 + d := by
  have e32 : (2 : Nat) ^ 32 = 4294967296 := by norm_num
  have e64 : (2 : Nat) ^ 64 = 18446744073709551616 := by norm_num
  have e96 : (2 : Nat) ^ 96 = 79228162514264337593543950336 := by norm_num
  rw [Nat.lor_assoc, Nat.lor_assoc, Nat.shiftLeft_eq, Nat.shiftLeft_eq, Nat.shiftLeft_eq]
  have h1 : c * 2 ^ 32 ||| d = c * 2 ^ 32 + d := by
    rw [mul_comm c]
    exact (Nat.mul_add_lt_is_or hd c).symm
  have hcd : c * 2 ^ 32 + d < 2 ^ 64 := by rw [e32, e64]; rw [e32] at hc hd; omega
  have h2 : b * 2 ^ 64 ||| (c * 2 ^ 32 + d) = b * 2 ^ 64 + (c * 2 ^ 32 + d) := by
    rw [mul_comm b]
    exact (Nat.mul_add_lt_is_or hcd b).symm
  have hbcd : b * 2 ^ 64 + (c * 2 ^ 32 + d) < 2 ^ 96 := by
    rw [e32, e64, e96]; rw [e32] at hb hc hd; omega
  have h3 : a * 2 ^ 96 ||| (b * 2 ^ 64 + (c * 2 ^ 32 + d)) =
      a * 2 ^ 96 + (b * 2 ^ 64 + (c * 2 ^ 32 + d)) := by
    rw [mul_comm a]
    exact (Nat.mul_add_lt_is_or hbcd a).symm
  rw [h1, h2, h3]
  ring

theorem seed_decompose (s : Nat) (hs : s < 2 ^ 128) :
    ((s >>> 96) % 2 ^ 32) * 2 ^ 96 + ((s >>> 64) % 2 ^ 32) * 2 ^ 64 +
      ((s >>> 32) % 2 ^ 32) * 2 ^ 32 + s % 2 ^ 32 = s := by
  simp only [Nat.shiftRight_eq_div_pow]
  have e32 : (2 : Nat) ^ 32 = 4294967296 := by norm_num
  have e64 : (2 : Nat) ^ 64 = 18446744073709551616 := by norm_num
  have e96 : (2 : Nat) ^ 96 = 79228162514264337593543950336 := by norm_num
  have e128 : (2 : Nat) ^ 128 = 340282366920938463463374607431768211456 := by norm_num
  rw [e128] at hs
  rw [e32, e64, e96]
  omega

theorem isUpperHexDigit_isSome (c : Char) (h : isUpperHexDigit c = true) :
    (parseHexDigit c).isSome := by
  simp only [isUpperHexDigit, decide_eq_true_eq] at h
  simp only [parseHexDigit]
  split_ifs <;> simp_all

theorem isUpperHexDigit_ne_plus (c : Char) (h : isUpperHexDigit c = true) : ¬ c = '+' := by
  intro e
  rw [e] at h
  exact absurd h (by decide)

theorem parseHexGo_isSome : ∀ (g : List Char) (acc : Nat),
    (∀ c ∈ g, (parseHexDigit c).isSome) → (acc + 1) * 16 ^ g.length ≤ 2 ^ 32 →
    (parseHexGo acc g).isSome := by
  intro g
  induction g with
  | nil => intro acc _ _; simp [parseHexGo]
  | cons c cs ih =>
    intro acc hall hb
    obtain ⟨d, hd⟩ := Option.isSome_iff_exists.mp (hall c (List.mem_cons_self c cs))
    have hdlt : d < 16 := parseHexDigit_lt c d hd
    have hb2 : (acc * 16 + d + 1) * 16 ^ cs.length ≤ 2 ^ 32 := by
      calc (acc * 16 + d + 1) * 16 ^ cs.length
          ≤ ((acc + 1) * 16) * 16 ^ cs.length := Nat.mul_le_mul_right _ (by omega)
        _ = (acc + 1) * 16 ^ (cs.length + 1) := by rw [pow_succ]; ring
        _ ≤ 2 ^ 32 := by simpa [List.length_cons] using hb
    have hcheck : acc * 16 + d < 2 ^ 32 := by
      have hp : 0 < 16 ^ cs.length := Nat.pos_pow_of_pos _ (by norm_num)
      have h1 : acc * 16 + d + 1 ≤ (acc * 16 + d + 1) * 16 ^ cs.length :=
        Nat.le_mul_of_pos_right _ hp
      omega
    simp only [parseHexGo, hd]
    rw [if_pos hcheck]
    exact ih (acc * 16 + d) (fun c2 h2 => hall c2 (List.mem_cons_of_mem c h2)) hb2

theorem canonicalGroup_parses (g : List Char) (h : canonicalGroup g = true) :
    ∃ v, fromStrRadix16U32 g = some v := by
  simp only [canonicalGroup, Bool.and_eq_true, beq_iff_eq, List.all_eq_true] at h
  obtain ⟨hlen, hall⟩ := h
  cases g with
  | nil => simp at hlen
  | cons c cs =>
    have hcu : isUpperHexDigit c = true := hall c (List.mem_cons_self c cs)
    rw [fromStrRadix_cons c cs (isUpperHexDigit_ne_plus c hcu)]
    have hsome := parseHexGo_isSome (c :: cs) 0
      (fun c2 h2 => isUpperHexDigit_isSome c2 (hall c2 h2))
      (by rw [hlen]; norm_num)
    exact Option.isSome_iff_exists.mp hsome

/-- Claim C3, counterexample: the parser accepts `"0-0-0-0"`, a string
of four hyphen-separated groups that are not 8-digit uppercase
hexadecimal groups, returning `Ok` with seed `0` rather than the error
the claim requires for every non-canonical string. -/
theorem c3_counterexample :
    Seed.from_str ("0-0-0-0".toList) = Except.ok 0 ∧
    canonicalSeedShape ("0-0-0-0".toList) = false := by
  constructor
  · rfl
  · rfl

/-- `Result::is_ok` for the embedded fallible computations. -/
def exceptIsOk {e a : Type} : Except e a → Bool
  | .ok _ => true
  | .error _ => false

/-- Claim C3 (amended): `Seed::from_str` accepts every string of
exactly four hyphen-separated groups whose groups each parse as a
hexadecimal `u32` — which includes every canonical 8-digit uppercase
group, but also lowercase, short or `+`-prefixed groups; it returns the
descriptive arity error for every other chunk arity, and an error
(never `Ok`) whenever some group fails to parse as hexadecimal.  So the
parser accepts strictly more than the canonical shape, and its errors
are exactly the two documented families. -/
theorem c3_seed_parser_amended :
    (∀ g1 g2 g3 g4 v1 v2 v3 v4 : _, ('-' ∉ g1) → ('-' ∉ g2) → ('-' ∉ g3) → ('-' ∉ g4) →
      fromStrRadix16U32 g1 = some v1 → fromStrRadix16U32 g2 = some v2 →
      fromStrRadix16U32 g3 = some v3 → fromStrRadix16U32 g4 = some v4 →
      Seed.from_str (g1 ++ '-' :: (g2 ++ '-' :: (g3 ++ '-' :: g4))) =
        Except.ok ((v1 <<< 96) ||| (v2 <<< 64) ||| (v3 <<< 32) ||| v4)) ∧
    (∀ cs : List Char, canonicalSeedShape cs = true → exceptIsOk (Seed.from_str cs) = true) ∧
    (∀ cs : List Char, (splitDash cs).length ≠ 4 →
      Seed.from_str cs = Except.error ("expecting 4 hexadecimal values separated by -")) ∧
    (∀ cs : List Char, (∃ g, g ∈ splitDash cs ∧ fromStrRadix16U32 g = none) →
      exceptIsOk (Seed.from_str cs) = false) := by
  refine ⟨?_, ?_, ?_, ?_⟩
  · intro g1 g2 g3 g4 v1 v2 v3 v4 hn1 hn2 hn3 hn4 hp1 hp2 hp3 hp4
    have hsplit : splitDash (g1 ++ '-' :: (g2 ++ '-' :: (g3 ++ '-' :: g4))) =
        [g1, g2, g3, g4] := by
      rw [splitDash_append _ _ hn1, splitDash_append _ _ hn2, splitDash_append _ _ hn3,
        splitDash_no_dash _ hn4]
    simp only [Seed.from_str, hsplit, List.map_cons, List.map_nil, hp1, hp2, hp3, hp4]
  · intro cs hcan
    rcases hsd : splitDash cs with _ | ⟨a, _ | ⟨b, _ | ⟨c, _ | ⟨d, _ | ⟨e, rest⟩⟩⟩⟩⟩ <;>
      simp only [canonicalSeedShape, hsd, Bool.and_eq_true] at hcan
    all_goals try exact absurd hcan (by decide)
    obtain ⟨⟨⟨ha, hb⟩, hc⟩, hd⟩ := hcan
    obtain ⟨va, hpa⟩ := canonicalGroup_parses a ha
    obtain ⟨vb, hpb⟩ := canonicalGroup_parses b hb
    obtain ⟨vc, hpc⟩ := canonicalGroup_parses c hc
    obtain ⟨vd, hpd⟩ := canonicalGroup_parses d hd
    simp only [Seed.from_str, hsd, List.map_cons, List.map_nil, hpa, hpb, hpc, hpd]
    rfl
  · intro cs h
    have hlen : ((splitDash cs).map fromStrRadix16U32).length ≠ 4 := by
      rw [List.length_map]
      exact h
    rcases hl : (splitDash cs).map fromStrRadix16U32 with
        _ | ⟨a, _ | ⟨b, _ | ⟨c, _ | ⟨d, _ | ⟨e, rest⟩⟩⟩⟩⟩ <;>
      rw [hl] at hlen
    all_goals try (simp only [Seed.from_str, hl])
    simp at hlen
  · intro cs hex
    obtain ⟨g, hgmem, hgnone⟩ := hex
    have hnone : none ∈ (splitDash cs).map fromStrRadix16U32 := by
      rw [← hgnone]
      exact List.mem_map_of_mem _ hgmem
    rcases hl : (splitDash cs).map fromStrRadix16U32 with
        _ | ⟨a, _ | ⟨b, _ | ⟨c, _ | ⟨d, _ | ⟨e, rest⟩⟩⟩⟩⟩ <;>
      rw [hl] at hnone <;> simp only [Seed.from_str, hl]
    all_goals try rfl
    rcases a with _ | va <;> rcases b with _ | vb <;> rcases c with _ | vc <;>
      rcases d with _ | vd <;>
        first
        | rfl
        | simp at hnone

/-- Witness for C3 (amended): the all-zero canonical string parses
successfully via the first clause. -/
theorem c3_seed_parser_amended_witness :
    Seed.from_str ("00000000-00000000-00000000-00000000".toList) = Except.ok 0 := by
  have h := c3_seed_parser_amended.1 ("00000000".toList) ("00000000".toList)
    ("00000000".toList) ("00000000".toList) 0 0 0 0
    (by decide) (by decide) (by decide) (by decide) rfl rfl rfl rfl
  exact h

/-- Claim C5: for every 128-bit seed value, parsing the canonical
string produced by `Display for Seed` yields the same seed back, and
the zero seed formats to exactly
`"00000000-00000000-00000000-00000000"`. -/
theorem c5_seed_roundtrip :
    (∀ s : Nat, s < 2 ^ 128 → Seed.from_str (Seed.display s) = Except.ok s) ∧
    Seed.display 0 = ("00000000-00000000-00000000-00000000".toList) := by
  constructor
  · intro s hs
    have hm32 : (0 : Nat) < 2 ^ 32 := by norm_num
    have hg1 := fromStrRadix_toHexN ((s >>> 96) % 2 ^ 32) (Nat.mod_lt _ hm32)
    have hg2 := fromStrRadix_toHexN ((s >>> 64) % 2 ^ 32) (Nat.mod_lt _ hm32)
    have hg3 := fromStrRadix_toHexN ((s >>> 32) % 2 ^ 32) (Nat.mod_lt _ hm32)
    have hg4 := fromStrRadix_toHexN (s % 2 ^ 32) (Nat.mod_lt _ hm32)
    have hsplit : splitDash (Seed.display s) =
        [toHexN 8 ((s >>> 96) % 2 ^ 32), toHexN 8 ((s >>> 64) % 2 ^ 32),
          toHexN 8 ((s >>> 32) % 2 ^ 32), toHexN 8 (s % 2 ^ 32)] := by
      unfold Seed.display
      rw [splitDash_append _ _ (toHexN_no_dash 8 _), splitDash_append _ _ (toHexN_no_dash 8 _),
        splitDash_append _ _ (toHexN_no_dash 8 _), splitDash_no_dash _ (toHexN_no_dash 8 _)]
    simp only [Seed.from_str, hsplit, List.map_cons, List.map_nil, hg1, hg2, hg3, hg4]
    rw [seed_recompose _ _ _ _ (Nat.mod_lt _ hm32) (Nat.mod_lt _ hm32) (Nat.mod_lt _ hm32),
      seed_decompose s hs]
  · rfl

/-- Witness for C5 at the seed value used by the parsing test of the crate,
`10000000-01020304-12412414-09080706`. -/
theorem c5_seed_roundtrip_witness :
    Seed.from_str (Seed.display 21267647932870571070123284429971916550) =
      Except.ok 21267647932870571070123284429971916550 :=
  c5_seed_roundtrip.1 21267647932870571070123284429971916550 (by norm_num)

end Smoke
